import Mathlib

/-!
Verification development for the EduVision medical-PDF assistant.

The Python sources under `app/` are shallowly embedded here.  Text is
modelled as `List Char` (`Str`), Python's `None`-able values as `Option`,
external effects (file store, environment variables, calls to the
inference service) as explicit function parameters, so that every
embedded operation is a total, executable Lean function whose branches
mirror the source line by line.
-/

namespace EduVision

/-- Strings are modelled as lists of characters. -/
abbrev Str := List Char

/-- Coerce a Lean string literal into the `List Char` model. -/
def str (s : String) : Str := s.data

/-! ## Python string primitives -/

/-- The whitespace characters stripped by Python's `str.strip()`. -/
def isPySpace (c : Char) : Bool :=
  c == ' ' || c == '\t' || c == '\n' || c == '\x0d' || c == '\x0b' || c == '\x0c'

/-- Python `str.strip()`: drop whitespace from both ends. -/
def pyStrip (s : Str) : Str :=
  ((s.dropWhile isPySpace).reverse.dropWhile isPySpace).reverse

/-- Python `str.lower()` (ASCII fragment, which is all the sources use). -/
def pyLower (s : Str) : Str := s.map Char.toLower

/-- `isPrefixB p s` : does `s` start with `p`?  (Python `str.startswith`.) -/
def isPrefixB : Str → Str → Bool
  | [], _ => true
  | _ :: _, [] => false
  | a :: p, b :: s => a == b && isPrefixB p s

/-- Python `str.endswith`. -/
def endsWithB (s p : Str) : Bool := isPrefixB p.reverse s.reverse

/-- Python substring containment `p in s`. -/
def hasSub (p : Str) : Str → Bool
  | [] => isPrefixB p []
  | b :: s => isPrefixB p (b :: s) || hasSub p s

/-- Python `str.find` for a single character: index of first occurrence. -/
def pyFind (c : Char) : Str → Option Nat
  | [] => none
  | a :: s => if a == c then some 0 else (pyFind c s).map (· + 1)

/-- Python `str.rfind` for a single character: index of last occurrence. -/
def pyRfind (c : Char) (s : Str) : Option Nat :=
  (pyFind c s.reverse).map (fun i => s.length - 1 - i)

/-- Leftmost occurrence of `sep` in a string: the text before it and the
text after it, or `none` when `sep` does not occur. -/
def splitOnce (sep : Str) : Str → Option (Str × Str)
  | [] => if sep = [] then some ([], []) else none
  | a :: s =>
    if isPrefixB sep (a :: s) then some ([], (a :: s).drop sep.length)
    else
      match splitOnce sep s with
      | none => none
      | some (pre, post) => some (a :: pre, post)

/-- Python `str.split(sep)` with an explicit bound on the number of splits
(`fuel` plays the role of `maxsplit`; passing the length of the string is
enough for an unbounded split). -/
def pySplitFuel (sep : Str) : Nat → Str → List Str
  | 0, s => [s]
  | fuel + 1, s =>
    match splitOnce sep s with
    | none => [s]
    | some (pre, post) => pre :: pySplitFuel sep fuel post

/-- Python `str.split(sep)` (no `maxsplit`). -/
def pySplit (sep : Str) (s : Str) : List Str := pySplitFuel sep s.length s

/-- Split on a single character, keeping empty segments (helper for
`str.splitlines`). -/
def splitChar (c : Char) : Str → List Str
  | [] => [[]]
  | a :: s =>
    if a == c then [] :: splitChar c s
    else
      match splitChar c s with
      | [] => [[a]]
      | p :: ps => (a :: p) :: ps

/-- Python `str.splitlines()` restricted to `\n` line breaks (the only
break the embedded sources produce). -/
def pySplitlines (s : Str) : List Str :=
  match s with
  | [] => []
  | _ =>
    let ps := splitChar '\n' s
    if s.getLast? = some '\n' then ps.dropLast else ps

/-- Python `"\n".join(parts)`, written as the source's loop produces it. -/
def joinNL : List Str → Str
  | [] => []
  | [t] => t
  | t :: rest => t ++ '\n' :: joinNL rest

/-! ## pdf_utils.extract_text (claim C5)

`extract_text` iterates the document's pages, takes
`page.extract_text() or ""` for each (a page with no extractable text is
modelled as `none`), and joins the parts with `"\n".join`. -/

/-- Embedding of `pdf_utils.extract_text`; a document is its list of
per-page extraction results (`none` = the page yields no text). -/
def extract_text (pages : List (Option Str)) : Str :=
  joinNL (pages.map (fun pt => pt.getD []))

/-! ## main.upload_pdf image filter (claim C4)

The upload handler walks the extracted image paths in order, keeps a path
when `os.path.getsize` reports strictly more than 1024 bytes, calls
`os.remove` on it otherwise, and on an `OSError` during the size
inspection skips the entry and continues.  The file system is modelled by
`getsize : Str → Option Nat` (`none` = `OSError`); the second component
of the result collects the paths passed to `os.remove`. -/

/-- Embedding of the image-filter loop of `main.upload_pdf` (lines 76-99):
returns `(kept paths, removed paths)`. -/
def filterLargeImages (getsize : Str → Option Nat) : List Str → List Str × List Str
  | [] => ([], [])
  | p :: rest =>
    match getsize p with
    | some n =>
      if n > 1024 then
        let r := filterLargeImages getsize rest
        (p :: r.1, r.2)
      else
        let r := filterLargeImages getsize rest
        (r.1, p :: r.2)
    | none => filterLargeImages getsize rest

/-! ## Theorems for C4 -/

/-- C4: after the upload-time filter pass the kept sequence is exactly the
extracted paths whose reported size exceeds 1024 bytes, in extraction
order; every path reported at or below 1024 bytes is removed from storage
and excluded; a path whose size inspection fails is skipped (excluded,
nothing removed, pass continues); hence no sub-threshold image enters the
session's `images`. -/
theorem C4_upload_filter (getsize : Str → Option Nat) (paths : List Str) :
    (filterLargeImages getsize paths).1
        = paths.filter (fun p =>
            match getsize p with
            | some n => decide (1024 < n)
            | none => false)
    ∧ (filterLargeImages getsize paths).2
        = paths.filter (fun p =>
            match getsize p with
            | some n => decide (n ≤ 1024)
            | none => false)
    ∧ ∀ p ∈ (filterLargeImages getsize paths).1,
        ∃ n, getsize p = some n ∧ 1024 < n := by
  induction paths with
  | nil => simp [filterLargeImages]
  | cons p rest ih =>
    obtain ⟨ih1, ih2, ih3⟩ := ih
    refine ⟨?_, ?_, ?_⟩
    · cases hg : getsize p with
      | none => simp [filterLargeImages, hg, ih1]
      | some n =>
        by_cases hn : 1024 < n
        · simp [filterLargeImages, hg, hn, ih1]
        · simp [filterLargeImages, hg, hn, ih1]
    · cases hg : getsize p with
      | none => simp [filterLargeImages, hg, ih2]
      | some n =>
        by_cases hn : 1024 < n
        · have hle : ¬ n ≤ 1024 := by omega
          simp [filterLargeImages, hg, hn, hle, ih2]
        · have hle : n ≤ 1024 := by omega
          simp [filterLargeImages, hg, hn, hle, ih2]
    · intro q hq
      cases hg : getsize p with
      | none =>
        rw [filterLargeImages, hg] at hq
        exact ih3 q hq
      | some n =>
        by_cases hn : 1024 < n
        · rw [filterLargeImages, hg] at hq
          simp only [hn, if_pos] at hq
          rcases List.mem_cons.mp hq with h | h
          · exact ⟨n, by rw [h]; exact hg, hn⟩
          · exact ih3 q h
        · rw [filterLargeImages, hg] at hq
          simp only [hn, if_neg] at hq
          exact ih3 q hq

/-! ## Theorems for C5 -/

/-- `joinNL` agrees with `List.intercalate` on a one-character separator. -/
theorem joinNL_eq_intercalate (parts : List Str) :
    joinNL parts = List.intercalate [('\n' : Char)] parts := by
  induction parts with
  | nil => simp [joinNL, List.intercalate]
  | cons t rest ih =>
    cases rest with
    | nil => simp [joinNL, List.intercalate]
    | cons u rest' =>
      simp only [joinNL, ih]
      simp [List.intercalate, List.intersperse]

/-- C5: `extract_text` on an `N`-page document is the newline-join of
exactly `N` per-page segments, in page order; a page with no extractable
text contributes the empty segment instead of being dropped.  When no
page text itself contains a newline (and there is at least one page), the
segments can be recovered verbatim by splitting on the separator. -/
theorem C5_extract_text (pages : List (Option Str)) :
    extract_text pages
        = List.intercalate (str "\n") (pages.map (fun pt => pt.getD []))
    ∧ (pages.map (fun pt => pt.getD [])).length = pages.length
    ∧ (∀ i (h : i < pages.length) (h' : i < (pages.map (fun pt => pt.getD [])).length),
        pages.get ⟨i, h⟩ = none → (pages.map (fun pt => pt.getD [])).get ⟨i, h'⟩ = [])
    ∧ (∀ i (h : i < pages.length) (h' : i < (pages.map (fun pt => pt.getD [])).length) t,
        pages.get ⟨i, h⟩ = some t → (pages.map (fun pt => pt.getD [])).get ⟨i, h'⟩ = t)
    ∧ (pages ≠ [] → (∀ pt ∈ pages, ('\n' : Char) ∉ pt.getD []) →
        (extract_text pages).splitOn '\n' = pages.map (fun pt => pt.getD [])) := by
  refine ⟨?_, by simp, ?_, ?_, ?_⟩
  · have : str "\n" = [('\n' : Char)] := rfl
    rw [this, extract_text, joinNL_eq_intercalate]
  · intro i h h' hnone
    simp only [List.get_eq_getElem] at hnone ⊢
    simp [hnone]
  · intro i h h' t hsome
    simp only [List.get_eq_getElem] at hsome ⊢
    simp [hsome]
  · intro hne hnl
    have hmapne : pages.map (fun pt => pt.getD []) ≠ [] := by
      simpa using hne
    have hx : ∀ l ∈ pages.map (fun pt => pt.getD []), ('\n' : Char) ∉ l := by
      intro l hl
      rcases List.mem_map.mp hl with ⟨pt, hpt, rfl⟩
      exact hnl pt hpt
    have := List.splitOn_intercalate (pages.map (fun pt => pt.getD []))
      ('\n' : Char) hx hmapne
    rw [extract_text, joinNL_eq_intercalate]
    exact this

/-! ## ai_utils.get_static_organ_image (claim C1)

The organ catalog is the `mapping` dict literal of
`get_static_organ_image`, kept in its exact definition (= insertion)
order; Python dict iteration follows that order.  The reference-image
store (`os.path.exists`) and the image directory (`ORGAN_IMAGE_DIR`) are
parameters of the embedding. -/

/-- The `mapping` dict of `get_static_organ_image`, in source order. -/
def organCatalog : List (Str × Str) :=
  [ (str "heart", str "heart.jpg"),
    (str "left ventricle", str "heart.jpg"),
    (str "right ventricle", str "heart.jpg"),
    (str "right atrium", str "heart.jpg"),
    (str "left atrium", str "heart.jpg"),
    (str "lung", str "lungs.jpg"),
    (str "lungs", str "lungs.jpg"),
    (str "brain", str "brain.jpg"),
    (str "liver", str "liver.jpg"),
    (str "kidney", str "kidney.jpg"),
    (str "kidneys", str "kidney.jpg"),
    (str "stomach", str "stomach.jpg"),
    (str "small intestine", str "intestine.jpg"),
    (str "large intestine", str "intestine.jpg"),
    (str "intestines", str "intestine.jpg"),
    (str "pancreas", str "pancreas.jpg"),
    (str "spleen", str "spleen.jpg"),
    (str "esophagus", str "esophagus.jpg"),
    (str "trachea", str "trachea.jpg"),
    (str "gallbladder", str "gallbladder.jpg"),
    (str "urinary bladder", str "urinary_bladder.jpg"),
    (str "bladder", str "urinary_bladder.jpg"),
    (str "thyroid", str "thyroid.jpg"),
    (str "thyroid gland", str "thyroid.jpg"),
    (str "adrenal gland", str "adrenal.jpg"),
    (str "adrenal glands", str "adrenal.jpg"),
    (str "skin", str "skin.jpg"),
    (str "eye", str "eye.jpg"),
    (str "eyes", str "eye.jpg"),
    (str "ear", str "ear.jpg"),
    (str "ears", str "ear.jpg"),
    (str "ovary", str "ovary.jpg"),
    (str "ovaries", str "ovary.jpg"),
    (str "testis", str "testis.jpg"),
    (str "testes", str "testis.jpg"),
    (str "duodenum", str "intestine.jpg"),
    (str "jejunum", str "intestine.jpg"),
    (str "ileum", str "intestine.jpg"),
    (str "cecum", str "intestine.jpg"),
    (str "colon", str "intestine.jpg"),
    (str "rectum", str "intestine.jpg"),
    (str "anus", str "intestine.jpg"),
    (str "appendix", str "intestine.jpg"),
    (str "pharynx", str "pharynx.jpg"),
    (str "larynx", str "larynx.jpg"),
    (str "bronchus", str "lungs.jpg"),
    (str "bronchi", str "lungs.jpg"),
    (str "alveoli", str "lungs.jpg"),
    (str "diaphragm", str "diaphragm.jpg"),
    (str "spinal cord", str "spinal_cord.jpg"),
    (str "cerebellum", str "brain.jpg"),
    (str "brainstem", str "brain.jpg"),
    (str "hypothalamus", str "brain.jpg"),
    (str "pituitary gland", str "pituitary.jpg"),
    (str "pineal gland", str "pineal.jpg"),
    (str "peripheral nerves", str "nervous_system.jpg"),
    (str "nervous system", str "nervous_system.jpg"),
    (str "ureter", str "urinary_system.jpg"),
    (str "ureters", str "urinary_system.jpg"),
    (str "urethra", str "urinary_system.jpg"),
    (str "epididymis", str "testis.jpg"),
    (str "vas deferens", str "testis.jpg"),
    (str "prostate", str "prostate.jpg"),
    (str "seminal vesicle", str "prostate.jpg"),
    (str "penis", str "male_reproductive.jpg"),
    (str "uterus", str "uterus.jpg"),
    (str "fallopian tube", str "uterus.jpg"),
    (str "fallopian tubes", str "uterus.jpg"),
    (str "cervix", str "uterus.jpg"),
    (str "vagina", str "uterus.jpg"),
    (str "retina", str "eye.jpg"),
    (str "optic nerve", str "eye.jpg"),
    (str "cochlea", str "ear.jpg"),
    (str "vestibular system", str "ear.jpg"),
    (str "parathyroid gland", str "thyroid.jpg"),
    (str "parathyroid glands", str "thyroid.jpg"),
    (str "lymph node", str "lymphatic.jpg"),
    (str "lymph nodes", str "lymphatic.jpg"),
    (str "bone marrow", str "bone.jpg"),
    (str "thymus", str "thymus.jpg"),
    (str "bone", str "bone.jpg"),
    (str "bones", str "bone.jpg"),
    (str "muscle", str "muscle.jpg"),
    (str "muscles", str "muscle.jpg"),
    (str "joint", str "joint.jpg"),
    (str "joints", str "joint.jpg"),
    (str "knee", str "joint.jpg") ]

/-- Python dict key lookup `mapping[name]` guarded by `name in mapping`:
the value of the first (and, keys being unique, only) matching pair. -/
def lookupKey : List (Str × Str) → Str → Option Str
  | [], _ => none
  | (k, v) :: rest, name => if k = name then some v else lookupKey rest name

/-- The `for key, value in mapping.items()` substring-fallback loop:
first entry whose key is contained in `name`. -/
def firstSubKey : List (Str × Str) → Str → Option Str
  | [], _ => none
  | (k, v) :: rest, name => if hasSub k name then some v else firstSubKey rest name

/-- `os.path.join` (POSIX fragment sufficient for the embedded calls). -/
def pathJoin (dir f : Str) : Str :=
  if isPrefixB (str "/") f then f
  else if dir = [] ∨ dir.getLast? = some '/' then dir ++ f
  else dir ++ str "/" ++ f

/-- Embedding of `ai_utils.get_static_organ_image` (lines 282-440).
`store` models `os.path.exists` over the reference-image store and `dir`
models `ORGAN_IMAGE_DIR`. -/
def get_static_organ_image (store : Str → Bool) (dir : Str) (organ : Str) :
    Option Str :=
  if organ = [] then none
  else
    let name := pyStrip (pyLower organ)
    let filename :=
      match lookupKey organCatalog name with
      | some f => some f
      | none => firstSubKey organCatalog name
    match filename with
    | none => none
    | some f =>
      if f = [] then none
      else
        let path := pathJoin dir f
        if store path then some path else none

/-! ## Theorems for C1 -/

/-- Every catalog key is nonempty, every filename is nonempty, and the
keys are pairwise distinct (so exact lookup is unambiguous). -/
theorem organCatalog_wf :
    (∀ p ∈ organCatalog, p.1 ≠ [] ∧ p.2 ≠ [])
      ∧ (organCatalog.map Prod.fst).Nodup := by
  constructor
  · decide
  · decide

/-- With pairwise-distinct keys, membership determines the lookup. -/
theorem lookupKey_eq_of_mem (d : List (Str × Str)) (k : Str) (f : Str)
    (hmem : (k, f) ∈ d) (hnd : (d.map Prod.fst).Nodup) :
    lookupKey d k = some f := by
  induction d with
  | nil => cases hmem
  | cons hd rest ih =>
    obtain ⟨k', v'⟩ := hd
    rcases List.mem_cons.mp hmem with heq | hmem'
    · obtain ⟨rfl, rfl⟩ := Prod.mk.injEq .. ▸ heq
      simp [lookupKey]
    · have hk : k' ≠ k := by
        intro h
        subst h
        have : k' ∈ rest.map Prod.fst := List.mem_map_of_mem Prod.fst hmem'
        simp only [List.map_cons, List.nodup_cons] at hnd
        exact hnd.1 this
      have hnd' : (rest.map Prod.fst).Nodup := by
        simp only [List.map_cons, List.nodup_cons] at hnd
        exact hnd.2
      simp [lookupKey, hk, ih hmem' hnd']

/-- If no key of `d` equals `name`, exact lookup fails. -/
theorem lookupKey_eq_none (d : List (Str × Str)) (name : Str)
    (h : ∀ p ∈ d, p.1 ≠ name) : lookupKey d name = none := by
  induction d with
  | nil => rfl
  | cons hd rest ih =>
    obtain ⟨k, v⟩ := hd
    have h1 : k ≠ name := h (k, v) (List.mem_cons_self _ _)
    simp only [lookupKey]
    rw [if_neg h1]
    exact ih (fun p hp => h p (List.mem_cons_of_mem _ hp))

/-- Substring containment is reflexive, as in Python (`s in s`). -/
theorem hasSub_refl (s : Str) : hasSub s s = true := by
  have hp : ∀ t : Str, isPrefixB t t = true := by
    intro t
    induction t with
    | nil => rfl
    | cons a t ih => simp [isPrefixB, ih]
  cases s with
  | nil => rfl
  | cons a s' => simp [hasSub, hp]

/-- Only the empty string is contained in the empty string. -/
theorem hasSub_nil (p : Str) : hasSub p [] = true ↔ p = [] := by
  cases p with
  | nil => simp [hasSub, isPrefixB]
  | cons a p' => simp [hasSub, isPrefixB]

/-- C1 (resolution contract of `get_static_organ_image`): writing
`name` for the lowercased, trimmed label,
(1) an exact match against a catalog key wins and resolves to that key's
    filename, subject to the backing file existing in the store;
(2) if no key is even a substring of `name` the result is absent;
(3) with no exact match, the first catalog key in definition order that
    is a substring of `name` resolves, subject to file existence;
(4) `resolve "Human Heart"` yields the path for key `"heart"` when its
    backing file exists; and
(5) `resolve "unknown tissue type"` is absent.
In all cases a missing backing file yields absent rather than an error. -/
theorem C1_get_static_organ_image :
    (∀ (store : Str → Bool) (dir organ k f : Str),
        (k, f) ∈ organCatalog → pyStrip (pyLower organ) = k →
        get_static_organ_image store dir organ
          = (if store (pathJoin dir f) then some (pathJoin dir f) else none))
    ∧ (∀ (store : Str → Bool) (dir organ : Str),
        (∀ p ∈ organCatalog, hasSub p.1 (pyStrip (pyLower organ)) = false) →
        get_static_organ_image store dir organ = none)
    ∧ (∀ (store : Str → Bool) (dir organ k f : Str) (l₁ l₂ : List (Str × Str)),
        organCatalog = l₁ ++ (k, f) :: l₂ →
        (∀ p ∈ organCatalog, p.1 ≠ pyStrip (pyLower organ)) →
        (∀ p ∈ l₁, hasSub p.1 (pyStrip (pyLower organ)) = false) →
        hasSub k (pyStrip (pyLower organ)) = true →
        get_static_organ_image store dir organ
          = (if store (pathJoin dir f) then some (pathJoin dir f) else none))
    ∧ (∀ (store : Str → Bool) (dir : Str),
        store (pathJoin dir (str "heart.jpg")) = true →
        get_static_organ_image store dir (str "Human Heart")
          = some (pathJoin dir (str "heart.jpg")))
    ∧ (∀ (store : Str → Bool) (dir : Str),
        get_static_organ_image store dir (str "unknown tissue type") = none) := by
  have hwf := organCatalog_wf
  have exact_case :
      ∀ (store : Str → Bool) (dir organ k f : Str),
        (k, f) ∈ organCatalog → pyStrip (pyLower organ) = k →
        get_static_organ_image store dir organ
          = (if store (pathJoin dir f) then some (pathJoin dir f) else none) := by
    intro store dir organ k f hmem hname
    have hkne : k ≠ [] := (hwf.1 (k, f) hmem).1
    have hfne : f ≠ [] := (hwf.1 (k, f) hmem).2
    have horg : organ ≠ [] := by
      intro h
      subst h
      exact hkne (hname.symm.trans rfl)
    have hlk : lookupKey organCatalog (pyStrip (pyLower organ)) = some f := by
      rw [hname]
      exact lookupKey_eq_of_mem organCatalog k f hmem hwf.2
    simp only [get_static_organ_image, horg, if_neg, hlk]
    simp [hfne]
  have none_case :
      ∀ (store : Str → Bool) (dir organ : Str),
        (∀ p ∈ organCatalog, hasSub p.1 (pyStrip (pyLower organ)) = false) →
        get_static_organ_image store dir organ = none := by
    intro store dir organ hno
    by_cases horg : organ = []
    · simp [get_static_organ_image, horg]
    · have hne : ∀ p ∈ organCatalog, p.1 ≠ pyStrip (pyLower organ) := by
        intro p hp h
        have := hno p hp
        rw [h] at this
        rw [hasSub_refl] at this
        exact Bool.true_eq_false.mp this
      have hlk := lookupKey_eq_none organCatalog (pyStrip (pyLower organ)) hne
      have hfs : firstSubKey organCatalog (pyStrip (pyLower organ)) = none := by
        have : ∀ d : List (Str × Str),
            (∀ p ∈ d, hasSub p.1 (pyStrip (pyLower organ)) = false) →
            firstSubKey d (pyStrip (pyLower organ)) = none := by
          intro d
          induction d with
          | nil => intro _; rfl
          | cons hd rest ih =>
            intro hall
            obtain ⟨k, v⟩ := hd
            have h1 := hall (k, v) (List.mem_cons_self _ _)
            simp only [firstSubKey]
            rw [h1]
            simp only [Bool.false_eq_true, if_neg, reduceIte]
            exact ih (fun p hp => hall p (List.mem_cons_of_mem _ hp))
        exact this organCatalog hno
      simp [get_static_organ_image, horg, hlk, hfs]
  have sub_case :
      ∀ (store : Str → Bool) (dir organ k f : Str) (l₁ l₂ : List (Str × Str)),
        organCatalog = l₁ ++ (k, f) :: l₂ →
        (∀ p ∈ organCatalog, p.1 ≠ pyStrip (pyLower organ)) →
        (∀ p ∈ l₁, hasSub p.1 (pyStrip (pyLower organ)) = false) →
        hasSub k (pyStrip (pyLower organ)) = true →
        get_static_organ_image store dir organ
          = (if store (pathJoin dir f) then some (pathJoin dir f) else none) := by
    intro store dir organ k f l₁ l₂ hcat hnoex hskip hsub
    have hmem : (k, f) ∈ organCatalog := by
      rw [hcat]
      exact List.mem_append_right l₁ (List.mem_cons_self _ _)
    have hfne : f ≠ [] := (hwf.1 (k, f) hmem).2
    have horg : organ ≠ [] := by
      intro h
      subst h
      have hk0 : k = [] := (hasSub_nil k).mp hsub
      exact hnoex (k, f) hmem hk0
    have hlk := lookupKey_eq_none organCatalog (pyStrip (pyLower organ)) hnoex
    have hfs : firstSubKey organCatalog (pyStrip (pyLower organ)) = some f := by
      rw [hcat]
      clear hcat hnoex hmem hlk
      induction l₁ with
      | nil =>
        simp only [List.nil_append, firstSubKey]
        rw [hsub]
        simp
      | cons hd rest ih =>
        obtain ⟨k', v'⟩ := hd
        have h1 := hskip (k', v') (List.mem_cons_self _ _)
        simp only [List.cons_append, firstSubKey]
        rw [h1]
        simp only [Bool.false_eq_true, reduceIte]
        exact ih (fun p hp => hskip p (List.mem_cons_of_mem _ hp))
    simp only [get_static_organ_image, horg, if_neg, hlk, hfs]
    simp [hfne]
  refine ⟨exact_case, none_case, sub_case, ?_, ?_⟩
  · intro store dir hstore
    have h := sub_case store dir (str "Human Heart") (str "heart") (str "heart.jpg")
      [] (organCatalog.tail) (by rfl) (by decide) (by intro p hp; cases hp) (by decide)
    rw [h, hstore]
    simp
  · intro store dir
    exact none_case store dir (str "unknown tissue type") (by decide)

/-! ## main.get_translation (claim C6)

`SESSION_DATA[sid]["translations"]` is a Python dict from language tag to
translated text, modelled as an insertion-ordered association list with
unique keys.  `get_translation` computes the translation only when the
language key is absent.  The inference call `translate_summary(summary,
language)` is abstracted as `translate : Str → Str` (the session's
summary is fixed); successive requests may carry different `translate`
functions, modelling an underlying compute whose output drifts. -/

/-- Python `key in dict`. -/
def dictContains : List (Str × Str) → Str → Bool
  | [], _ => false
  | (k, _) :: rest, key => k = key || dictContains rest key

/-- Python `dict[key]` as an `Option`. -/
def dictGet : List (Str × Str) → Str → Option Str
  | [], _ => none
  | (k, v) :: rest, key => if k = key then some v else dictGet rest key

/-- Python `dict[key] = val`: replace in place, or append a new key. -/
def dictSet : List (Str × Str) → Str → Str → List (Str × Str)
  | [], key, val => [(key, val)]
  | (k, v) :: rest, key, val =>
    if k = key then (k, val) :: rest else (k, v) :: dictSet rest key val

/-- Embedding of `main.get_translation` (lines 116-124): returns the
updated `translations` dict and the reported translation. -/
def get_translation (translate : Str → Str) (translations : List (Str × Str))
    (language : Str) : List (Str × Str) × Str :=
  let t' :=
    if dictContains translations language then translations
    else dictSet translations language (translate language)
  (t', (dictGet t' language).getD [])

/-! ## main.get_details and main.get_refs (claim C10)

Both artifact slots start as Python `None` and are guarded by
`if not data["details"]` / `if not data["references"]`: the cached value
is reused only when it is truthy, so an empty string or empty list is
recomputed and overwritten.  The compute functions
(`generate_detailed_text`, `generate_references`) are abstracted as
thunks. -/

/-- Python truthiness of an optional string slot (`None` and `""` are
falsy). -/
def truthyStrSlot : Option Str → Bool
  | none => false
  | some s => s ≠ []

/-- Python truthiness of an optional list slot (`None` and `[]` are
falsy). -/
def truthyListSlot : Option (List Str) → Bool
  | none => false
  | some l => l ≠ []

/-- Embedding of `main.get_details` (lines 127-135): returns the updated
`details` slot and the reported details. -/
def get_details (compute : Unit → Str) (details : Option Str) :
    Option Str × Str :=
  let d' := if truthyStrSlot details then details else some (compute ())
  (d', d'.getD [])

/-- Embedding of `main.get_refs` (lines 157-165): returns the updated
`references` slot and the reported references. -/
def get_refs (compute : Unit → List Str) (references : Option (List Str)) :
    Option (List Str) × List Str :=
  let r' := if truthyListSlot references then references else some (compute ())
  (r', r'.getD [])

/-! ## Theorems for C6 -/

/-- Setting a key makes it retrievable. -/
theorem dictGet_dictSet_self (d : List (Str × Str)) (k v : Str) :
    dictGet (dictSet d k v) k = some v := by
  induction d with
  | nil => simp [dictSet, dictGet]
  | cons hd rest ih =>
    obtain ⟨k', v'⟩ := hd
    by_cases h : k' = k
    · simp [dictSet, dictGet, h]
    · simp [dictSet, dictGet, h, ih]

/-- Setting a key leaves other keys' values unchanged. -/
theorem dictGet_dictSet_ne (d : List (Str × Str)) (k v k' : Str) (h : k' ≠ k) :
    dictGet (dictSet d k v) k' = dictGet d k' := by
  induction d with
  | nil =>
    simp only [dictSet, dictGet]
    rw [if_neg (Ne.symm h)]
  | cons hd rest ih =>
    obtain ⟨k₀, v₀⟩ := hd
    by_cases h0 : k₀ = k
    · subst h0
      simp [dictSet, dictGet, Ne.symm h, h]
    · by_cases h1 : k₀ = k'
      · simp [dictSet, dictGet, h0, h1, h]
      · simp [dictSet, dictGet, h0, h1, ih]

/-- Setting a key makes `dictContains` report it. -/
theorem dictContains_dictSet_self (d : List (Str × Str)) (k v : Str) :
    dictContains (dictSet d k v) k = true := by
  induction d with
  | nil => simp [dictSet, dictContains]
  | cons hd rest ih =>
    obtain ⟨k₀, v₀⟩ := hd
    by_cases h0 : k₀ = k
    · simp [dictSet, dictContains, h0]
    · simp [dictSet, dictContains, h0, ih]

/-- Setting a key does not change membership of other keys. -/
theorem dictContains_dictSet_ne (d : List (Str × Str)) (k v k' : Str)
    (h : k' ≠ k) : dictContains (dictSet d k v) k' = dictContains d k' := by
  induction d with
  | nil => simp [dictSet, dictContains, Ne.symm h]
  | cons hd rest ih =>
    obtain ⟨k₀, v₀⟩ := hd
    by_cases h0 : k₀ = k
    · subst h0
      simp [dictSet, dictContains, Ne.symm h]
    · simp [dictSet, dictContains, h0, ih]

/-- C6: the per-session translation cache is additive and write-once per
language key.  Starting from a cache holding neither `l₁` nor `l₂`,
requesting `l₁` (computed by `tr₁`) and then `l₂` (computed by `tr₂`)
leaves both cached; re-requesting either language afterwards — under an
arbitrary current compute `tr₃` — returns the originally stored value and
leaves the cache unchanged, without consulting `tr₃`. -/
theorem C6_translation_cache (tr₁ tr₂ : Str → Str) (d : List (Str × Str))
    (l₁ l₂ : Str) (h₁ : dictContains d l₁ = false)
    (h₂ : dictContains d l₂ = false) (hne : l₁ ≠ l₂) :
    dictGet (get_translation tr₂ (get_translation tr₁ d l₁).1 l₂).1 l₁
        = some (tr₁ l₁)
    ∧ dictGet (get_translation tr₂ (get_translation tr₁ d l₁).1 l₂).1 l₂
        = some (tr₂ l₂)
    ∧ (∀ tr₃,
        get_translation tr₃ (get_translation tr₂ (get_translation tr₁ d l₁).1 l₂).1 l₁
          = ((get_translation tr₂ (get_translation tr₁ d l₁).1 l₂).1, tr₁ l₁))
    ∧ (∀ tr₃,
        get_translation tr₃ (get_translation tr₂ (get_translation tr₁ d l₁).1 l₂).1 l₂
          = ((get_translation tr₂ (get_translation tr₁ d l₁).1 l₂).1, tr₂ l₂)) := by
  have hs₁ : (get_translation tr₁ d l₁).1 = dictSet d l₁ (tr₁ l₁) := by
    simp [get_translation, h₁]
  have hc₂ : dictContains (dictSet d l₁ (tr₁ l₁)) l₂ = false := by
    rw [dictContains_dictSet_ne d l₁ (tr₁ l₁) l₂ (Ne.symm hne)]
    exact h₂
  have hs₂ : (get_translation tr₂ (get_translation tr₁ d l₁).1 l₂).1
      = dictSet (dictSet d l₁ (tr₁ l₁)) l₂ (tr₂ l₂) := by
    rw [hs₁]
    simp [get_translation, hc₂]
  have hg₁ : dictGet (dictSet (dictSet d l₁ (tr₁ l₁)) l₂ (tr₂ l₂)) l₁
      = some (tr₁ l₁) := by
    rw [dictGet_dictSet_ne _ l₂ (tr₂ l₂) l₁ hne]
    exact dictGet_dictSet_self d l₁ (tr₁ l₁)
  have hg₂ : dictGet (dictSet (dictSet d l₁ (tr₁ l₁)) l₂ (tr₂ l₂)) l₂
      = some (tr₂ l₂) := dictGet_dictSet_self _ l₂ (tr₂ l₂)
  have hc₁' : dictContains (dictSet (dictSet d l₁ (tr₁ l₁)) l₂ (tr₂ l₂)) l₁
      = true := by
    rw [dictContains_dictSet_ne _ l₂ (tr₂ l₂) l₁ hne]
    exact dictContains_dictSet_self d l₁ (tr₁ l₁)
  have hc₂' : dictContains (dictSet (dictSet d l₁ (tr₁ l₁)) l₂ (tr₂ l₂)) l₂
      = true := dictContains_dictSet_self _ l₂ (tr₂ l₂)
  refine ⟨by rw [hs₂]; exact hg₁, by rw [hs₂]; exact hg₂, ?_, ?_⟩
  · intro tr₃
    rw [hs₂]
    simp [get_translation, hc₁', hg₁]
  · intro tr₃
    rw [hs₂]
    simp [get_translation, hc₂', hg₂]

/-- Witness for C6 at concrete inputs: an empty cache, languages `"fr"`
and `"de"`, and a third compute function that would give a different
answer for `"fr"` yet is never consulted. -/
theorem C6_translation_cache_witness :
    dictContains [] (str "fr") = false ∧ dictContains [] (str "de") = false
    ∧ str "fr" ≠ str "de"
    ∧ dictGet (get_translation (fun _ => str "Hallo")
        (get_translation (fun _ => str "Bonjour") [] (str "fr")).1 (str "de")).1
        (str "fr") = some (str "Bonjour")
    ∧ get_translation (fun _ => str "CHANGED")
        (get_translation (fun _ => str "Hallo")
          (get_translation (fun _ => str "Bonjour") [] (str "fr")).1 (str "de")).1
        (str "fr")
        = ((get_translation (fun _ => str "Hallo")
            (get_translation (fun _ => str "Bonjour") [] (str "fr")).1
            (str "de")).1, str "Bonjour") := by
  have h := C6_translation_cache (fun _ => str "Bonjour") (fun _ => str "Hallo")
    [] (str "fr") (str "de") (by decide) (by decide) (by decide)
  exact ⟨by decide, by decide, by decide, h.1,
    h.2.2.1 (fun _ => str "CHANGED")⟩

/-! ## Theorems for C10 -/

/-- C10: the cached-presence test for the `details` and `references`
artifacts is value truthiness, not slot occupancy.  An empty stored
string (resp. empty stored list) — and likewise an untouched `None`
slot — causes the compute function to run again and its value to
overwrite the slot; only a non-empty stored value is returned unchanged,
with no dependence on the current compute function. -/
theorem C10_truthiness_cache :
    (∀ compute : Unit → Str,
        get_details compute (some []) = (some (compute ()), compute ()))
    ∧ (∀ compute : Unit → Str,
        get_details compute none = (some (compute ()), compute ()))
    ∧ (∀ (compute : Unit → Str) (s : Str), s ≠ [] →
        get_details compute (some s) = (some s, s))
    ∧ (∀ compute : Unit → List Str,
        get_refs compute (some []) = (some (compute ()), compute ()))
    ∧ (∀ compute : Unit → List Str,
        get_refs compute none = (some (compute ()), compute ()))
    ∧ (∀ (compute : Unit → List Str) (l : List Str), l ≠ [] →
        get_refs compute (some l) = (some l, l)) := by
  refine ⟨?_, ?_, ?_, ?_, ?_, ?_⟩
  · intro compute
    simp [get_details, truthyStrSlot]
  · intro compute
    simp [get_details, truthyStrSlot]
  · intro compute s hs
    simp [get_details, truthyStrSlot, hs]
  · intro compute
    simp [get_refs, truthyListSlot]
  · intro compute
    simp [get_refs, truthyListSlot]
  · intro compute l hl
    simp [get_refs, truthyListSlot, hl]

/-- Witness for C10 at concrete inputs: an empty cached string is
recomputed while a non-empty one short-circuits, and similarly for
reference lists. -/
theorem C10_truthiness_cache_witness :
    get_details (fun _ => str "fresh") (some []) = (some (str "fresh"), str "fresh")
    ∧ str "cached" ≠ []
    ∧ get_details (fun _ => str "fresh") (some (str "cached"))
        = (some (str "cached"), str "cached")
    ∧ get_refs (fun _ => [str "r1"]) (some []) = (some [str "r1"], [str "r1"])
    ∧ [str "kept"] ≠ ([] : List Str)
    ∧ get_refs (fun _ => [str "r1"]) (some [str "kept"])
        = (some [str "kept"], [str "kept"]) := by
  refine ⟨C10_truthiness_cache.1 (fun _ => str "fresh"), by decide,
    C10_truthiness_cache.2.2.1 (fun _ => str "fresh") (str "cached") (by decide),
    C10_truthiness_cache.2.2.2.1 (fun _ => [str "r1"]), by decide,
    C10_truthiness_cache.2.2.2.2.2 (fun _ => [str "r1"]) [str "kept"] (by decide)⟩

/-- Witness for C1 at concrete inputs: the two spec examples under a
store that has every file, and the exact-match clause under a store with
no files (resolution yields absent, not an error). -/
theorem C1_get_static_organ_image_witness :
    get_static_organ_image (fun _ => true) (str "organs") (str "Human Heart")
        = some (pathJoin (str "organs") (str "heart.jpg"))
    ∧ get_static_organ_image (fun _ => true) (str "organs")
        (str "unknown tissue type") = none
    ∧ get_static_organ_image (fun _ => false) (str "organs") (str "Heart")
        = none := by
  have h := C1_get_static_organ_image
  refine ⟨h.2.2.2.1 (fun _ => true) (str "organs") rfl,
    h.2.2.2.2 (fun _ => true) (str "organs"), ?_⟩
  have hx := h.1 (fun _ => false) (str "organs") (str "Heart")
    (str "heart") (str "heart.jpg") (by decide) (by decide)
  rw [hx]
  rfl

/-- Witness for C4 at a concrete store: one large image, one small image,
one unreadable image. -/
theorem C4_upload_filter_witness :
    (filterLargeImages
        (fun p => if p = str "a.png" then some 2000
                  else if p = str "b.png" then some 100 else none)
        [str "a.png", str "b.png", str "c.png"]).1 = [str "a.png"]
    ∧ (filterLargeImages
        (fun p => if p = str "a.png" then some 2000
                  else if p = str "b.png" then some 100 else none)
        [str "a.png", str "b.png", str "c.png"]).2 = [str "b.png"]
    ∧ ∃ n, (fun p => if p = str "a.png" then some 2000
                  else if p = str "b.png" then some 100 else none)
            (str "a.png") = some n ∧ 1024 < n := by
  have h := C4_upload_filter
    (fun p => if p = str "a.png" then some 2000
              else if p = str "b.png" then some 100 else none)
    [str "a.png", str "b.png", str "c.png"]
  refine ⟨by rw [h.1]; decide, by rw [h.2.1]; decide,
    h.2.2 (str "a.png") (by rw [h.1]; decide)⟩

/-- Witness for C5 at a concrete three-page document whose middle page
has no extractable text. -/
theorem C5_extract_text_witness :
    extract_text [some (str "page one"), none, some (str "page two")]
        = List.intercalate (str "\n") [str "page one", [], str "page two"]
    ∧ ([some (str "page one"), none, some (str "page two")].map
        (fun pt => pt.getD [])).get ⟨1, by decide⟩ = []
    ∧ (extract_text [some (str "page one"), none, some (str "page two")]).splitOn '\n'
        = [str "page one", [], str "page two"] := by
  have h := C5_extract_text [some (str "page one"), none, some (str "page two")]
  refine ⟨h.1, h.2.2.1 1 (by decide) (by decide) rfl, ?_⟩
  have h5 := h.2.2.2.2 (by decide) (by decide)
  rw [h5]
  rfl

/-! ## ai_utils._extract_json_object (claim C2)

The sanitizer trims the text, strips a leading markdown fence (taking the
segment between the first two fence delimiters — or everything after the
opening delimiter when it is unmatched), strips a trailing fence if one
is still present, and finally returns the inclusive span from the first
opening brace to the last closing brace when that span is well ordered,
else the processed text unchanged. -/

/-- The opening-brace character. -/
def braceOpen : Char := Char.ofNat 123

/-- The closing-brace character. -/
def braceClose : Char := Char.ofNat 125

/-- The fence-handling half of `_extract_json_object` (lines 484-491). -/
def stripFences (t : Str) : Str :=
  let t1 :=
    if isPrefixB (str "```") t then
      let parts := pySplitFuel (str "```") 2 t
      if parts.length ≥ 2 then pyStrip (parts.getD 1 []) else t
    else t
  if endsWithB t1 (str "```") then pyStrip (t1.take (t1.length - 3)) else t1

/-- The brace-extraction half of `_extract_json_object` (lines 493-500). -/
def extractBraces (t : Str) : Str :=
  match pyFind braceOpen t, pyRfind braceClose t with
  | some s, some e => if e > s then (t.drop s).take (e + 1 - s) else t
  | some _, none => t
  | none, _ => t

/-- Embedding of `ai_utils._extract_json_object` (lines 473-500). -/
def extract_json_object (text : Str) : Str :=
  if text = [] then text
  else extractBraces (stripFences (pyStrip text))

/-! ## Theorems for C2 -/

/-- A character not occurring in `l` is not found. -/
theorem pyFind_eq_none (c : Char) (l : Str) (h : c ∉ l) : pyFind c l = none := by
  induction l with
  | nil => rfl
  | cons a l ih =>
    have ha : ¬ a = c := by
      intro hac
      exact h (hac ▸ List.mem_cons_self a l)
    simp only [pyFind, beq_iff_eq, ha, if_false]
    rw [ih (fun hm => h (List.mem_cons_of_mem a hm))]
    rfl

/-- `pyFind` returns the index of the first occurrence. -/
theorem pyFind_first (c : Char) (pre post : Str) (h : c ∉ pre) :
    pyFind c (pre ++ c :: post) = some pre.length := by
  induction pre with
  | nil => simp [pyFind]
  | cons a pre ih =>
    have ha : ¬ a = c := by
      intro hac
      exact h (hac ▸ List.mem_cons_self a pre)
    have ih' := ih (fun hm => h (List.mem_cons_of_mem a hm))
    simp only [List.cons_append, pyFind, beq_iff_eq, ha, if_false]
    rw [show (pre.append (c :: post)) = pre ++ c :: post from rfl, ih']
    simp

/-- `pyRfind` returns the index of the last occurrence. -/
theorem pyRfind_last (c : Char) (pre post : Str) (h : c ∉ post) :
    pyRfind c (pre ++ c :: post) = some pre.length := by
  have hrev : (pre ++ c :: post).reverse = post.reverse ++ c :: pre.reverse := by
    simp
  have hmem : c ∉ post.reverse := by
    intro hm
    exact h (List.mem_reverse.mp hm)
  rw [pyRfind, hrev, pyFind_first c post.reverse pre.reverse hmem,
    Option.map_some']
  congr 1
  simp only [List.length_reverse, List.length_append, List.length_cons]
  omega

/-- Unfolding `extractBraces` when both brace searches succeed. -/
theorem extractBraces_some_some (t : Str) (s e : Nat)
    (hf : pyFind braceOpen t = some s) (hr : pyRfind braceClose t = some e) :
    extractBraces t = if e > s then (t.drop s).take (e + 1 - s) else t := by
  unfold extractBraces
  rw [hf, hr]

/-- Unfolding `extractBraces` when no opening brace exists. -/
theorem extractBraces_no_open (t : Str) (hf : pyFind braceOpen t = none) :
    extractBraces t = t := by
  unfold extractBraces
  rw [hf]

/-- Unfolding `extractBraces` when no closing brace exists. -/
theorem extractBraces_no_close (t : Str) (hr : pyRfind braceClose t = none) :
    extractBraces t = t := by
  unfold extractBraces
  rw [hr]
  cases pyFind braceOpen t <;> rfl

/-- C2: `_extract_json_object` is total (the embedding is a Lean
function, so it cannot raise) and computes exactly the claimed algorithm:
(1) the §8 fenced example yields precisely the brace-delimited object;
(2) after fence handling, a text decomposing as
    `pre ++ braceOpen :: mid ++ braceClose :: post` with no earlier
    opening brace and no later closing brace yields the inclusive span
    `braceOpen :: mid ++ [braceClose]`;
(3) when no well-ordered brace pair exists the processed text is
    returned unchanged;
(4) a text with neither a leading nor a trailing fence is untouched by
    fence handling; and
(5) hence trimmed, fence-free, brace-free input is returned trimmed but
    otherwise unchanged. -/
theorem C2_extract_json_object :
    extract_json_object
        (str "```json\n\x7b\"organ\":\"heart\",\"labels\":[\"left ventricle\"]\x7d\n```")
        = str "\x7b\"organ\":\"heart\",\"labels\":[\"left ventricle\"]\x7d"
    ∧ (∀ t pre mid post : Str,
        t = pre ++ braceOpen :: (mid ++ braceClose :: post) →
        braceOpen ∉ pre → braceClose ∉ post →
        extractBraces t = braceOpen :: (mid ++ [braceClose]))
    ∧ (∀ t : Str,
        (∀ s e, pyFind braceOpen t = some s → pyRfind braceClose t = some e →
          e ≤ s) →
        extractBraces t = t)
    ∧ (∀ t : Str, isPrefixB (str "```") t = false →
        endsWithB t (str "```") = false → stripFences t = t)
    ∧ (∀ text : Str, isPrefixB (str "```") (pyStrip text) = false →
        endsWithB (pyStrip text) (str "```") = false →
        (∀ s e, pyFind braceOpen (pyStrip text) = some s →
          pyRfind braceClose (pyStrip text) = some e → e ≤ s) →
        extract_json_object text = pyStrip text) := by
  have case2 : ∀ t pre mid post : Str,
      t = pre ++ braceOpen :: (mid ++ braceClose :: post) →
      braceOpen ∉ pre → braceClose ∉ post →
      extractBraces t = braceOpen :: (mid ++ [braceClose]) := by
    intro t pre mid post ht hpre hpost
    subst ht
    have hfind : pyFind braceOpen (pre ++ braceOpen :: (mid ++ braceClose :: post))
        = some pre.length := pyFind_first braceOpen pre _ hpre
    have hassoc : pre ++ braceOpen :: (mid ++ braceClose :: post)
        = (pre ++ braceOpen :: mid) ++ braceClose :: post := by
      simp
    have hrfind : pyRfind braceClose (pre ++ braceOpen :: (mid ++ braceClose :: post))
        = some (pre.length + 1 + mid.length) := by
      rw [hassoc, pyRfind_last braceClose (pre ++ braceOpen :: mid) post hpost]
      congr 1
      simp
      omega
    rw [extractBraces_some_some _ _ _ hfind hrfind]
    have hgt : pre.length + 1 + mid.length > pre.length := by omega
    rw [if_pos hgt]
    have hdrop : (pre ++ braceOpen :: (mid ++ braceClose :: post)).drop pre.length
        = braceOpen :: (mid ++ braceClose :: post) := by
      rw [List.drop_left]
    rw [hdrop]
    have htake : pre.length + 1 + mid.length + 1 - pre.length = mid.length + 2 := by
      omega
    rw [htake]
    have hsplit : braceOpen :: (mid ++ braceClose :: post)
        = braceOpen :: ((mid ++ [braceClose]) ++ post) := by
      simp
    rw [hsplit, List.take_succ_cons]
    have hlen : mid.length + 1 = (mid ++ [braceClose]).length := by
      simp
    rw [hlen, List.take_left]
  have case3 : ∀ t : Str,
      (∀ s e, pyFind braceOpen t = some s → pyRfind braceClose t = some e →
        e ≤ s) →
      extractBraces t = t := by
    intro t hle
    cases hf : pyFind braceOpen t with
    | none => exact extractBraces_no_open t hf
    | some s =>
      cases hr : pyRfind braceClose t with
      | none => exact extractBraces_no_close t hr
      | some e =>
        have := hle s e hf hr
        have hng : ¬ e > s := by omega
        rw [extractBraces_some_some t s e hf hr, if_neg hng]
  have case4 : ∀ t : Str, isPrefixB (str "```") t = false →
      endsWithB t (str "```") = false → stripFences t = t := by
    intro t h1 h2
    rw [stripFences]
    simp only [h1, Bool.false_eq_true, if_false, h2]
  refine ⟨by decide, case2, case3, case4, ?_⟩
  intro text h1 h2 h3
  by_cases htext : text = []
  · subst htext
    rfl
  · rw [extract_json_object, if_neg htext, case4 (pyStrip text) h1 h2,
      case3 (pyStrip text) h3]

/-- Witness for C2 at concrete inputs: brace extraction out of
surrounding prose, the no-brace identity, the unfenced identity, and the
end-to-end trim-only case. -/
theorem C2_extract_json_object_witness :
    extractBraces (str "note \x7b\"a\":1\x7d tail")
        = braceOpen :: (str "\"a\":1" ++ [braceClose])
    ∧ extractBraces (str "no braces here") = str "no braces here"
    ∧ stripFences (str "plain text") = str "plain text"
    ∧ extract_json_object (str "  hello  ") = pyStrip (str "  hello  ") := by
  have h := C2_extract_json_object
  refine ⟨h.2.1 (str "note \x7b\"a\":1\x7d tail") (str "note ") (str "\"a\":1")
      (str " tail") (by decide) (by decide) (by decide),
    h.2.2.1 (str "no braces here") ?_,
    h.2.2.2.1 (str "plain text") (by decide) (by decide),
    h.2.2.2.2 (str "  hello  ") (by decide) (by decide) ?_⟩
  · intro s e hs he
    rw [(by decide : pyFind braceOpen (str "no braces here") = none)] at hs
    cases hs
  · intro s e hs he
    rw [(by decide : pyFind braceOpen (pyStrip (str "  hello  ")) = none)] at hs
    cases hs

/-! ## Inference adapter (claims C7, C8)

A call to the chat-completions endpoint is abstracted as a function from
the submitted prompt to an outcome: the model's reply, an
`APIConnectionError`, or any other exception.  Each adapter operation
catches those exceptions and degrades to its textual error sentinel,
exactly as the `try/except` blocks in `ai_utils.py` do. -/

/-- Outcome of one inference call. -/
inductive ChatOutcome (α : Type) where
  | ok (response : α)
  | connErr
  | otherErr

/-- The prompt built by `ai_utils.translate_text`. -/
def translatePrompt (text language context : Str) : Str :=
  str "Translate the following " ++ context ++ str " into " ++ language
    ++ str ". Keep medical terminology accurate and use a professional tone.\n\n"
    ++ text

/-- Embedding of `ai_utils.translate_text` (lines 66-83). -/
def translate_text (chat : Str → ChatOutcome Str) (text language context : Str) :
    Str :=
  match chat (translatePrompt text language context) with
  | .ok s => pyStrip s
  | .connErr =>
    str "Error: unable to contact Azure OpenAI for translation to "
      ++ language ++ str "."
  | .otherErr => str "Error: translation failed."

/-- The prompt built by `ai_utils.generate_detailed_text`. -/
def detailPrompt (summary full_text : Str) : Str :=
  str "You are an expert medical educator. Using the PDF content and its summary, - Generate the following content ONLY if it is about HUMAN anatomy.\n- If the content is about ANIMALS or VETERINARY topics, respond exactly with:\n  \"Animal content detected. Details not generated.\"\n\nwrite a detailed explanation for doctors (around 1000 words). Include sections: Anatomy, Physiology, Common Pathologies, Diagnostics, and Clinical Notes.\n\nSUMMARY:\n"
    ++ summary ++ str "\n\nFULL TEXT:\n" ++ full_text

/-- Embedding of `ai_utils.generate_detailed_text` (lines 123-148); the
full text is truncated to a 12000-character prefix before submission. -/
def generate_detailed_text (chat : Str → ChatOutcome Str)
    (summary full_text : Str) : Str :=
  match chat (detailPrompt summary (full_text.take 12000)) with
  | .ok s => pyStrip s
  | .connErr => str "Error: unable to contact Azure OpenAI for detailed explanation."
  | .otherErr => str "Error: details generation failed."

/-- Embedding of `ai_utils.generate_detailed_text_translated`
(lines 150-163): elaborate, then translate unless elaboration returned
an `"Error:"`-sentinel. -/
def generate_detailed_text_translated (chatDetail chatTranslate : Str → ChatOutcome Str)
    (summary full_text language : Str) : Str :=
  let details := generate_detailed_text chatDetail summary full_text
  if isPrefixB (str "Error:") details then details
  else translate_text chatTranslate details language
    (str "detailed medical explanation")

/-! ## Theorems for C8 -/

/-- C8: `generate_detailed_text_translated` short-circuits on failure —
whenever elaboration produces the error sentinel (a string starting with
`"Error:"`), that sentinel is returned directly and the result does not
depend on the translation service at all; otherwise the elaborated text
is handed to translation. -/
theorem C8_detail_translation_short_circuit
    (chatDetail : Str → ChatOutcome Str) (summary full_text language : Str) :
    (isPrefixB (str "Error:") (generate_detailed_text chatDetail summary full_text)
        = true →
      ∀ chatTranslate,
        generate_detailed_text_translated chatDetail chatTranslate summary
            full_text language
          = generate_detailed_text chatDetail summary full_text)
    ∧ (isPrefixB (str "Error:") (generate_detailed_text chatDetail summary full_text)
        = false →
      ∀ chatTranslate,
        generate_detailed_text_translated chatDetail chatTranslate summary
            full_text language
          = translate_text chatTranslate
              (generate_detailed_text chatDetail summary full_text) language
              (str "detailed medical explanation")) := by
  constructor
  · intro herr chatTranslate
    simp [generate_detailed_text_translated, herr]
  · intro hok chatTranslate
    simp [generate_detailed_text_translated, hok]

/-- Witness for C8: an elaboration call that hits a connection error
yields the sentinel, which is returned unchanged past a translation
service that would mangle it. -/
theorem C8_detail_translation_short_circuit_witness :
    isPrefixB (str "Error:")
        (generate_detailed_text (fun _ => ChatOutcome.connErr) (str "s") (str "t"))
        = true
    ∧ generate_detailed_text_translated (fun _ => ChatOutcome.connErr)
        (fun _ => ChatOutcome.ok (str "TRANSLATED GARBAGE")) (str "s") (str "t")
        (str "French")
        = str "Error: unable to contact Azure OpenAI for detailed explanation." := by
  have h := C8_detail_translation_short_circuit (fun _ => ChatOutcome.connErr)
    (str "s") (str "t") (str "French")
  refine ⟨by decide, ?_⟩
  have h1 := h.1 (by decide) (fun _ => ChatOutcome.ok (str "TRANSLATED GARBAGE"))
  rw [h1]
  rfl

/-! ## ai_utils.translate_references (claim C7)

The source defines `translate_references` twice.  The first definition
(lines 85-111) splits each line on `"http"`, translates only the leading
text and reattaches `f"{translated} http{parts[1]}"`.  The second
definition (lines 192-213) replaces the first under Python name
resolution: it joins all lines — URLs included — into a single prompt
that merely instructs the model to keep URLs unchanged, and returns the
model's response split into non-empty lines.  The effective function is
therefore the second one. -/

/-- Embedding of the first, shadowed `translate_references`
(lines 85-111). -/
def translate_references_v1 (chat : Str → ChatOutcome Str)
    (references : List Str) (language : Str) : List Str :=
  references.map (fun ref =>
    let parts := pySplit (str "http") ref
    let text_part := pyStrip (parts.headD [])
    let translated_text :=
      if text_part ≠ [] then
        translate_text chat text_part language (str "medical reference text")
      else []
    if parts.length > 1 then translated_text ++ str " http" ++ parts.getD 1 []
    else translated_text)

/-- The prompt built by the second, effective `translate_references`. -/
def translate_references_prompt (refs : List Str) (language : Str) : Str :=
  str "Translate the following medical reference titles and headings into "
    ++ language ++ str ". Do NOT translate URLs. Keep URLs exactly the same.\n\n"
    ++ joinNL refs

/-- Embedding of the second, effective `translate_references`
(lines 192-213). -/
def translate_references (chat : Str → ChatOutcome Str) (refs : List Str)
    (language : Str) : List Str :=
  if refs = [] then []
  else
    match chat (translate_references_prompt refs language) with
    | .ok s => (pySplitlines (pyStrip s)).filter (fun l => !(pyStrip l).isEmpty)
    | .connErr => [str "Error: reference translation failed."]
    | .otherErr => [str "Error: reference translation failed."]

/-- The portion of a line from its first `"http"` token onward (empty
when the line has no such token). -/
def urlSuffixFrom (s : Str) : Str :=
  match splitOnce (str "http") s with
  | some (_, post) => str "http" ++ post
  | none => []

/-! ## Theorems for C7 -/

/-- C7 counterexample: URL-verbatim preservation fails on the code.
(1) The effective `translate_references` returns whatever lines the
inference service produces: a service response that rewrites the URL
yields an output line whose portion from the first URL token differs
from the input's, and the prompt submitted to the service contains the
full URL (not only the text preceding it).
(2) Even the shadowed first definition drops everything after a second
`"http"` occurrence, so its output line does not retain the input's
whole URL suffix either. -/
theorem C7_counterexample_translate_references :
    translate_references (fun _ => ChatOutcome.ok (str "Titre http://b.example"))
        [str "Title http://a.example"] (str "French")
        = [str "Titre http://b.example"]
    ∧ urlSuffixFrom (str "Titre http://b.example")
        ≠ urlSuffixFrom (str "Title http://a.example")
    ∧ hasSub (str "http://a.example")
        (translate_references_prompt [str "Title http://a.example"] (str "French"))
        = true
    ∧ translate_references_v1 (fun _ => ChatOutcome.ok (str "T"))
        [str "A http://x and http://y"] (str "French")
        = [str "T http://x and "]
    ∧ urlSuffixFrom (str "T http://x and ")
        ≠ urlSuffixFrom (str "A http://x and http://y") := by
  refine ⟨by decide, by decide, by decide, by decide, by decide⟩

/-- `splitOnce` decomposes its input. -/
theorem splitOnce_reconstruct (sep : Str) :
    ∀ (s pre post : Str), splitOnce sep s = some (pre, post) →
      s = pre ++ sep ++ post := by
  have hpre : ∀ (p t : Str), isPrefixB p t = true → t = p ++ t.drop p.length := by
    intro p
    induction p with
    | nil =>
      intro t _
      simp
    | cons a p ih =>
      intro t h
      cases t with
      | nil => cases h
      | cons b t' =>
        simp only [isPrefixB, Bool.and_eq_true, beq_iff_eq] at h
        obtain ⟨rfl, h2⟩ := h
        have := ih t' h2
        simp only [List.length_cons, List.drop_succ_cons, List.cons_append]
        exact congrArg (a :: ·) this
  intro s
  induction s with
  | nil =>
    intro pre post h
    by_cases hsep : sep = []
    · subst hsep
      simp only [splitOnce, if_pos rfl, Option.some.injEq, Prod.mk.injEq] at h
      obtain ⟨rfl, rfl⟩ := h
      rfl
    · simp only [splitOnce, if_neg hsep] at h
      cases h
  | cons a s ih =>
    intro pre post h
    by_cases hp : isPrefixB sep (a :: s) = true
    · simp only [splitOnce, hp, if_true, Option.some.injEq, Prod.mk.injEq] at h
      obtain ⟨rfl, rfl⟩ := h
      have := hpre sep (a :: s) hp
      simpa using this
    · simp only [splitOnce, hp, Bool.false_eq_true, if_false] at h
      cases hrec : splitOnce sep s with
      | none => rw [hrec] at h; cases h
      | some pr =>
        obtain ⟨pre', post'⟩ := pr
        rw [hrec] at h
        simp only [Option.some.injEq, Prod.mk.injEq] at h
        obtain ⟨rfl, rfl⟩ := h
        have := ih pre' post' hrec
        simp only [List.cons_append]
        exact congrArg (a :: ·) this

/-- `pySplitFuel` never returns the empty list. -/
theorem pySplitFuel_ne_nil (sep : Str) (fuel : Nat) (s : Str) :
    pySplitFuel sep fuel s ≠ [] := by
  cases fuel with
  | zero => simp [pySplitFuel]
  | succ fuel =>
    simp only [pySplitFuel]
    cases splitOnce sep s with
    | none => simp
    | some pr => simp

/-- A singleton split result is the unsplit input. -/
theorem pySplitFuel_single (sep : Str) (fuel : Nat) (s x : Str)
    (h : pySplitFuel sep fuel s = [x]) : s = x := by
  cases fuel with
  | zero =>
    simp only [pySplitFuel, List.cons.injEq] at h
    exact h.1
  | succ fuel =>
    simp only [pySplitFuel] at h
    cases hso : splitOnce sep s with
    | none =>
      rw [hso] at h
      simp only [List.cons.injEq] at h
      exact h.1
    | some pr =>
      obtain ⟨pre, post⟩ := pr
      rw [hso] at h
      simp only [List.cons.injEq] at h
      exact absurd h.2 (pySplitFuel_ne_nil sep fuel post)

/-- A two-element split decomposes the input around one occurrence of
the separator. -/
theorem pySplitFuel_pair (sep : Str) (fuel : Nat) (s pre suf : Str)
    (h : pySplitFuel sep fuel s = [pre, suf]) : s = pre ++ sep ++ suf := by
  cases fuel with
  | zero => simp [pySplitFuel] at h
  | succ fuel =>
    simp only [pySplitFuel] at h
    cases hso : splitOnce sep s with
    | none =>
      rw [hso] at h
      simp at h
    | some pr =>
      obtain ⟨pre', post⟩ := pr
      rw [hso] at h
      simp only [List.cons.injEq] at h
      obtain ⟨h1, h2⟩ := h
      have hpost : post = suf := pySplitFuel_single sep fuel post suf h2
      have hrec := splitOnce_reconstruct sep s pre' post hso
      rw [hrec, h1, hpost]

/-- C7 amended: the URL-preserving behaviour holds of the first,
shadowed `translate_references` for lines containing exactly one
occurrence of `"http"`: such a line decomposes as
`pre ++ "http" ++ suf`, only the trimmed leading text `pre` is submitted
for translation, and everything from the first `"http"` onward is
reattached byte-for-byte (after the `f"{translated} http{parts[1]}"`
template's space). -/
theorem C7_amended_translate_references_v1
    (chat : Str → ChatOutcome Str) (language ref pre suf : Str)
    (hsplit : pySplit (str "http") ref = [pre, suf])
    (hne : pyStrip pre ≠ []) :
    ref = pre ++ str "http" ++ suf
    ∧ translate_references_v1 chat [ref] language
        = [translate_text chat (pyStrip pre) language
            (str "medical reference text") ++ str " http" ++ suf] := by
  constructor
  · exact pySplitFuel_pair (str "http") ref.length ref pre suf hsplit
  · simp only [translate_references_v1, List.map, hsplit]
    simp [hne]

/-- Witness for C7's amended statement at a concrete single-URL line. -/
theorem C7_amended_translate_references_v1_witness :
    pySplit (str "http") (str "Gray, Anatomy. http://a.example/gray")
        = [str "Gray, Anatomy. ", str "://a.example/gray"]
    ∧ translate_references_v1 (fun _ => ChatOutcome.ok (str "Gray, Anatomie."))
        [str "Gray, Anatomy. http://a.example/gray"] (str "French")
        = [str "Gray, Anatomie. http://a.example/gray"] := by
  have h := C7_amended_translate_references_v1
    (fun _ => ChatOutcome.ok (str "Gray, Anatomie.")) (str "French")
    (str "Gray, Anatomy. http://a.example/gray") (str "Gray, Anatomy. ")
    (str "://a.example/gray") (by decide) (by decide)
  refine ⟨by decide, ?_⟩
  rw [h.2]
  rfl

/-! ## ai_utils.identify_organ (claim C3)

The source defines `identify_organ` twice; the effective definition is
the second (lines 506-580), which sanitizes the model output with
`_extract_json_object` before parsing.  Parsed JSON values are modelled
by `JVal`; `json.loads` itself is an external library and is abstracted
as `parse : Str → Option JVal` (`none` = a parse exception).  Python's
`"key" in data` and `data["key"] = v` are modelled with their exception
behaviour (`none` = `TypeError`), which the function's outer
`except Exception` turns into the default result. -/

/-- Parsed JSON values. -/
inductive JVal where
  | jstr (s : Str)
  | jnum (n : Int)
  | jbool (b : Bool)
  | jnull
  | jarr (xs : List JVal)
  | jobj (kvs : List (Str × JVal))

/-- Python `key in dict` for a parsed object. -/
def dictContainsJ : List (Str × JVal) → Str → Bool
  | [], _ => false
  | (k, _) :: rest, key => k = key || dictContainsJ rest key

/-- Python `dict[key]` for a parsed object. -/
def dictGetJ : List (Str × JVal) → Str → Option JVal
  | [], _ => none
  | (k, v) :: rest, key => if k = key then some v else dictGetJ rest key

/-- Python `dict[key] = val` for a parsed object. -/
def dictSetJ : List (Str × JVal) → Str → JVal → List (Str × JVal)
  | [], key, val => [(key, val)]
  | (k, v) :: rest, key, val =>
    if k = key then (k, val) :: rest else (k, v) :: dictSetJ rest key val

/-- Does a JSON array element compare equal (Python `==`) to a string? -/
def jvalEqStr (v : JVal) (k : Str) : Bool :=
  match v with
  | .jstr s => s = k
  | _ => false

/-- Python `k in data` on a parsed JSON value; `none` models the
`TypeError` raised for number/bool/null receivers. -/
def pyContains (data : JVal) (k : Str) : Option Bool :=
  match data with
  | .jobj kvs => some (dictContainsJ kvs k)
  | .jarr xs => some (xs.any (fun v => jvalEqStr v k))
  | .jstr s => some (hasSub k s)
  | _ => none

/-- Python `data[k] = v` on a parsed JSON value; `none` models the
`TypeError` raised for every non-dict receiver. -/
def pySetItem (data : JVal) (k : Str) (v : JVal) : Option JVal :=
  match data with
  | .jobj kvs => some (.jobj (dictSetJ kvs k v))
  | _ => none

/-- The `{organ: "unknown", labels: []}` fallback result. -/
def defaultOrgan : JVal :=
  .jobj [(str "organ", .jstr (str "unknown")), (str "labels", .jarr [])]

/-- The key-defaulting epilogue of `identify_organ` (lines 568-571),
with `none` modelling an escaped `TypeError` at any of its four
raising operations. -/
def fillDefaults (data : JVal) : Option JVal :=
  match pyContains data (str "organ") with
  | none => none
  | some hasOrgan =>
    match (if hasOrgan then some data
           else pySetItem data (str "organ") (.jstr (str "unknown"))) with
    | none => none
    | some data₁ =>
      match pyContains data₁ (str "labels") with
      | none => none
      | some hasLabels =>
        match (if hasLabels then some data₁
               else pySetItem data₁ (str "labels") (.jarr [])) with
        | none => none
        | some data₂ => some data₂

/-- One message-content part of a chat response (a dict with or without
a `"text"` key, or a non-dict part). -/
inductive PyPart where
  | textPart (t : Str)
  | noTextPart
  | nonDictPart

/-- The `"text"` field of a part, when the part is a dict carrying one. -/
def partText : PyPart → Option Str
  | .textPart t => some t
  | .noTextPart => none
  | .nonDictPart => none

/-- The `message.content` of a chat response: a string, `None`, or a
list of parts. -/
inductive PyContent where
  | cstr (s : Str)
  | cnone
  | clist (ps : List PyPart)

/-- The content-normalisation step of `identify_organ` (lines 545-553):
a list joins the `"text"` of its dict parts, `None` becomes `""`. -/
def normalizeContent : PyContent → Str
  | .cstr s => s
  | .cnone => []
  | .clist ps => (ps.filterMap partText).flatten

/-- The environment one `identify_organ` call runs in: the outcome of
reading the image file (`none` = the `open`/`read` raised) and the
outcome of the vision call. -/
structure VisionEnv where
  imageData : Option Str
  response : ChatOutcome PyContent

/-- Embedding of the effective `ai_utils.identify_organ`
(lines 506-580). -/
def identify_organ (parse : Str → Option JVal) (env : VisionEnv) : JVal :=
  match env.imageData with
  | none => defaultOrgan
  | some _ =>
    match env.response with
    | .connErr => defaultOrgan
    | .otherErr => defaultOrgan
    | .ok content =>
      let content_text := extract_json_object (normalizeContent content)
      match parse content_text with
      | none => defaultOrgan
      | some data => (fillDefaults data).getD defaultOrgan

/-- Reading a top-level key off an `identify_organ` result. -/
def jGet (v : JVal) (k : Str) : Option JVal :=
  match v with
  | .jobj kvs => dictGetJ kvs k
  | _ => none

/-! ## Theorems for C3 -/

/-- Setting a key in a parsed object makes it retrievable. -/
theorem dictGetJ_dictSetJ_self (d : List (Str × JVal)) (k : Str) (v : JVal) :
    dictGetJ (dictSetJ d k v) k = some v := by
  induction d with
  | nil => simp [dictSetJ, dictGetJ]
  | cons hd rest ih =>
    obtain ⟨k₀, v₀⟩ := hd
    by_cases h0 : k₀ = k
    · simp [dictSetJ, dictGetJ, h0]
    · simp [dictSetJ, dictGetJ, h0, ih]

/-- Setting a key in a parsed object leaves other keys unchanged. -/
theorem dictGetJ_dictSetJ_ne (d : List (Str × JVal)) (k : Str) (v : JVal)
    (k' : Str) (h : k' ≠ k) :
    dictGetJ (dictSetJ d k v) k' = dictGetJ d k' := by
  induction d with
  | nil =>
    simp only [dictSetJ, dictGetJ]
    rw [if_neg (Ne.symm h)]
  | cons hd rest ih =>
    obtain ⟨k₀, v₀⟩ := hd
    by_cases h0 : k₀ = k
    · subst h0
      simp [dictSetJ, dictGetJ, Ne.symm h, h]
    · by_cases h1 : k₀ = k'
      · simp [dictSetJ, dictGetJ, h0, h1, h]
      · simp [dictSetJ, dictGetJ, h0, h1, ih]

/-- Setting a key in a parsed object does not change membership of other
keys. -/
theorem dictContainsJ_dictSetJ_ne (d : List (Str × JVal)) (k : Str) (v : JVal)
    (k' : Str) (h : k' ≠ k) :
    dictContainsJ (dictSetJ d k v) k' = dictContainsJ d k' := by
  induction d with
  | nil => simp [dictSetJ, dictContainsJ, Ne.symm h]
  | cons hd rest ih =>
    obtain ⟨k₀, v₀⟩ := hd
    by_cases h0 : k₀ = k
    · subst h0
      simp [dictSetJ, dictContainsJ, Ne.symm h]
    · simp [dictSetJ, dictContainsJ, h0, ih]

/-- A key reported absent is absent. -/
theorem dictGetJ_eq_none_of_not_contains (d : List (Str × JVal)) (k : Str)
    (h : dictContainsJ d k = false) : dictGetJ d k = none := by
  induction d with
  | nil => rfl
  | cons hd rest ih =>
    obtain ⟨k₀, v₀⟩ := hd
    simp only [dictContainsJ, Bool.or_eq_false_iff, decide_eq_false_iff_not] at h
    simp [dictGetJ, h.1, ih h.2]

/-- C3: `identify_organ` never propagates a failure: an unreadable image
file, a connection error, any other inference failure, or a JSON parse
failure of the sanitized response each yield exactly
`{organ: "unknown", labels: []}`; and when parsing yields an object, a
missing `organ` or `labels` key is filled with the same default value
while present keys and all other keys are preserved. -/
theorem C3_identify_organ_defaults :
    (∀ (parse : Str → Option JVal) (resp : ChatOutcome PyContent),
        identify_organ parse ⟨none, resp⟩ = defaultOrgan)
    ∧ (∀ (parse : Str → Option JVal) (img : Str),
        identify_organ parse ⟨some img, ChatOutcome.connErr⟩ = defaultOrgan)
    ∧ (∀ (parse : Str → Option JVal) (img : Str),
        identify_organ parse ⟨some img, ChatOutcome.otherErr⟩ = defaultOrgan)
    ∧ (∀ (parse : Str → Option JVal) (img : Str) (content : PyContent),
        parse (extract_json_object (normalizeContent content)) = none →
        identify_organ parse ⟨some img, ChatOutcome.ok content⟩ = defaultOrgan)
    ∧ (∀ (parse : Str → Option JVal) (img : Str) (content : PyContent)
        (kvs : List (Str × JVal)),
        parse (extract_json_object (normalizeContent content)) = some (.jobj kvs) →
        (dictContainsJ kvs (str "organ") = false →
          jGet (identify_organ parse ⟨some img, ChatOutcome.ok content⟩) (str "organ")
            = some (.jstr (str "unknown")))
        ∧ (dictContainsJ kvs (str "organ") = true →
          jGet (identify_organ parse ⟨some img, ChatOutcome.ok content⟩) (str "organ")
            = dictGetJ kvs (str "organ"))
        ∧ (dictContainsJ kvs (str "labels") = false →
          jGet (identify_organ parse ⟨some img, ChatOutcome.ok content⟩) (str "labels")
            = some (.jarr []))
        ∧ (dictContainsJ kvs (str "labels") = true →
          jGet (identify_organ parse ⟨some img, ChatOutcome.ok content⟩) (str "labels")
            = dictGetJ kvs (str "labels"))
        ∧ (∀ k : Str, k ≠ str "organ" → k ≠ str "labels" →
          jGet (identify_organ parse ⟨some img, ChatOutcome.ok content⟩) k
            = dictGetJ kvs k)) := by
  refine ⟨fun parse resp => rfl, fun parse img => rfl, fun parse img => rfl,
    ?_, ?_⟩
  · intro parse img content hparse
    simp only [identify_organ, hparse]
  · intro parse img content kvs hparse
    have hkey : str "labels" ≠ str "organ" := by decide
    have hresult : identify_organ parse ⟨some img, ChatOutcome.ok content⟩
        = (fillDefaults (.jobj kvs)).getD defaultOrgan := by
      simp only [identify_organ, hparse]
    cases horg : dictContainsJ kvs (str "organ") with
    | true =>
      cases hlab : dictContainsJ kvs (str "labels") with
      | true =>
        have hfd : fillDefaults (.jobj kvs) = some (.jobj kvs) := by
          simp [fillDefaults, pyContains, horg, hlab]
        have hres : identify_organ parse ⟨some img, ChatOutcome.ok content⟩
            = .jobj kvs := by
          rw [hresult, hfd]
          rfl
        refine ⟨?_, ?_, ?_, ?_, ?_⟩
        · intro h; exact absurd h (by decide)
        · intro _; rw [hres]; rfl
        · intro h; exact absurd h (by decide)
        · intro _; rw [hres]; rfl
        · intro k _ _; rw [hres]; rfl
      | false =>
        have hfd : fillDefaults (.jobj kvs)
            = some (.jobj (dictSetJ kvs (str "labels") (.jarr []))) := by
          simp [fillDefaults, pyContains, pySetItem, horg, hlab]
        have hres : identify_organ parse ⟨some img, ChatOutcome.ok content⟩
            = .jobj (dictSetJ kvs (str "labels") (.jarr [])) := by
          rw [hresult, hfd]
          rfl
        refine ⟨?_, ?_, ?_, ?_, ?_⟩
        · intro h; exact absurd h (by decide)
        · intro _
          rw [hres]
          exact dictGetJ_dictSetJ_ne kvs (str "labels") (.jarr []) (str "organ")
            (by decide)
        · intro _
          rw [hres]
          exact dictGetJ_dictSetJ_self kvs (str "labels") (.jarr [])
        · intro h; exact absurd h (by decide)
        · intro k _ hk2
          rw [hres]
          exact dictGetJ_dictSetJ_ne kvs (str "labels") (.jarr []) k hk2
    | false =>
      have hlab₁ : dictContainsJ (dictSetJ kvs (str "organ") (.jstr (str "unknown")))
          (str "labels") = dictContainsJ kvs (str "labels") :=
        dictContainsJ_dictSetJ_ne kvs (str "organ") (.jstr (str "unknown"))
          (str "labels") hkey
      cases hlab : dictContainsJ kvs (str "labels") with
      | true =>
        have hfd : fillDefaults (.jobj kvs)
            = some (.jobj (dictSetJ kvs (str "organ") (.jstr (str "unknown")))) := by
          simp [fillDefaults, pyContains, pySetItem, horg, hlab₁, hlab]
        have hres : identify_organ parse ⟨some img, ChatOutcome.ok content⟩
            = .jobj (dictSetJ kvs (str "organ") (.jstr (str "unknown"))) := by
          rw [hresult, hfd]
          rfl
        refine ⟨?_, ?_, ?_, ?_, ?_⟩
        · intro _
          rw [hres]
          exact dictGetJ_dictSetJ_self kvs (str "organ") (.jstr (str "unknown"))
        · intro h; exact absurd h (by decide)
        · intro h; exact absurd h (by decide)
        · intro _
          rw [hres]
          exact dictGetJ_dictSetJ_ne kvs (str "organ") (.jstr (str "unknown"))
            (str "labels") hkey
        · intro k hk1 _
          rw [hres]
          exact dictGetJ_dictSetJ_ne kvs (str "organ") (.jstr (str "unknown")) k hk1
      | false =>
        have hfd : fillDefaults (.jobj kvs)
            = some (.jobj (dictSetJ (dictSetJ kvs (str "organ")
                (.jstr (str "unknown"))) (str "labels") (.jarr []))) := by
          simp [fillDefaults, pyContains, pySetItem, horg, hlab₁, hlab]
        have hres : identify_organ parse ⟨some img, ChatOutcome.ok content⟩
            = .jobj (dictSetJ (dictSetJ kvs (str "organ") (.jstr (str "unknown")))
                (str "labels") (.jarr [])) := by
          rw [hresult, hfd]
          rfl
        refine ⟨?_, ?_, ?_, ?_, ?_⟩
        · intro _
          rw [hres]
          show dictGetJ _ (str "organ") = some (.jstr (str "unknown"))
          rw [dictGetJ_dictSetJ_ne _ (str "labels") (.jarr []) (str "organ")
            (by decide)]
          exact dictGetJ_dictSetJ_self kvs (str "organ") (.jstr (str "unknown"))
        · intro h; exact absurd h (by decide)
        · intro _
          rw [hres]
          exact dictGetJ_dictSetJ_self _ (str "labels") (.jarr [])
        · intro h; exact absurd h (by decide)
        · intro k hk1 hk2
          rw [hres]
          show dictGetJ _ k = dictGetJ kvs k
          rw [dictGetJ_dictSetJ_ne _ (str "labels") (.jarr []) k hk2]
          exact dictGetJ_dictSetJ_ne kvs (str "organ") (.jstr (str "unknown")) k hk1

/-- Witness for C3 at concrete inputs: a failing parse yields the
default; a successful parse of `{"page": 3}` (no `organ`, no `labels`)
has both keys filled with defaults and the other key preserved. -/
theorem C3_identify_organ_defaults_witness :
    identify_organ (fun _ => none)
        ⟨some (str "img"), ChatOutcome.ok (PyContent.cstr (str "not json"))⟩
        = defaultOrgan
    ∧ jGet (identify_organ (fun _ => some (.jobj [(str "page", .jnum 3)]))
        ⟨some (str "img"), ChatOutcome.ok (PyContent.cstr (str "x"))⟩)
        (str "organ") = some (.jstr (str "unknown"))
    ∧ jGet (identify_organ (fun _ => some (.jobj [(str "page", .jnum 3)]))
        ⟨some (str "img"), ChatOutcome.ok (PyContent.cstr (str "x"))⟩)
        (str "labels") = some (.jarr [])
    ∧ jGet (identify_organ (fun _ => some (.jobj [(str "page", .jnum 3)]))
        ⟨some (str "img"), ChatOutcome.ok (PyContent.cstr (str "x"))⟩)
        (str "page") = some (.jnum 3) := by
  have h := C3_identify_organ_defaults
  have h5 := h.2.2.2.2 (fun _ => some (.jobj [(str "page", .jnum 3)]))
    (str "img") (PyContent.cstr (str "x")) [(str "page", .jnum 3)] rfl
  refine ⟨h.2.2.2.1 (fun _ => none) (str "img")
      (PyContent.cstr (str "not json")) rfl,
    h5.1 (by decide), h5.2.2.1 (by decide), ?_⟩
  have := h5.2.2.2.2 (str "page") (by decide) (by decide)
  rw [this]
  rfl

/-! ## config.py module initialisation (claim C9)

`config.py` reads each configuration value at import time with
`os.getenv(...) or ""` — a missing (or empty) variable silently becomes
the empty string — and the API version with
`os.getenv(key, "2024-02-15-preview")`, a literal default.  Module
initialisation itself performs no validation and cannot fail on missing
configuration.  The environment is modelled as `env : Str → Option Str`
(`none` = variable unset). -/

/-- The configuration values `config.py` exports. -/
structure AzureConfig where
  endpoint : Str
  apiKey : Str
  apiVersion : Str
  chatDeployment : Str
  visionDeployment : Str
deriving DecidableEq

/-- Python `os.getenv(k) or ""`. -/
def getenvOrEmpty (env : Str → Option Str) (k : Str) : Str :=
  match env k with
  | some s => if s = [] then [] else s
  | none => []

/-- Python `os.getenv(k, default)`. -/
def getenvDefault (env : Str → Option Str) (k d : Str) : Str :=
  match env k with
  | some s => s
  | none => d

/-- Embedding of the configuration assignments of `config.py`
(lines 26-31), executed unconditionally at module import. -/
def loadConfig (env : Str → Option Str) : AzureConfig :=
  { endpoint := getenvOrEmpty env (str "AZURE_OPENAI_ENDPOINT")
    apiKey := getenvOrEmpty env (str "AZURE_OPENAI_API_KEY")
    apiVersion := getenvDefault env (str "AZURE_OPENAI_API_VERSION")
      (str "2024-02-15-preview")
    chatDeployment := getenvOrEmpty env (str "AZURE_OPENAI_CHAT_DEPLOYMENT")
    visionDeployment := getenvOrEmpty env (str "AZURE_OPENAI_VISION_DEPLOYMENT") }

/-- Modelled from the spec: a loader that reports missing required
configuration (endpoint, credentials, API version, both deployment
selectors) as a startup failure (`none`), which is what the claim says
module initialisation does. -/
def loadConfigChecked (env : Str → Option Str) : Option AzureConfig :=
  match env (str "AZURE_OPENAI_ENDPOINT"), env (str "AZURE_OPENAI_API_KEY"),
      env (str "AZURE_OPENAI_API_VERSION"),
      env (str "AZURE_OPENAI_CHAT_DEPLOYMENT"),
      env (str "AZURE_OPENAI_VISION_DEPLOYMENT") with
  | some e, some k, some v, some c, some d =>
    some { endpoint := e, apiKey := k, apiVersion := v,
           chatDeployment := c, visionDeployment := d }
  | _, _, _, _, _ => none

/-! ## Theorems for C9 -/

/-- C9 counterexample: with every required configuration variable
absent, the claimed behaviour is a reported startup failure
(`loadConfigChecked` = `none`), but `config.py`'s module initialisation
succeeds and silently produces empty-string values (with the literal
API-version default) instead. -/
theorem C9_counterexample_loadConfig :
    loadConfigChecked (fun _ => none) = none
    ∧ loadConfig (fun _ => none)
        = { endpoint := [], apiKey := [],
            apiVersion := str "2024-02-15-preview",
            chatDeployment := [], visionDeployment := [] } := by
  constructor
  · rfl
  · rfl

/-- C9 amended: the absence of any required configuration value is
silently tolerated at module initialisation — loading always succeeds,
a missing endpoint, credential or deployment selector is replaced by the
empty string, and a missing API version by the literal default
`"2024-02-15-preview"`; nothing is reported until first use. -/
theorem C9_amended_loadConfig (env : Str → Option Str) :
    (env (str "AZURE_OPENAI_ENDPOINT") = none → (loadConfig env).endpoint = [])
    ∧ (env (str "AZURE_OPENAI_API_KEY") = none → (loadConfig env).apiKey = [])
    ∧ (env (str "AZURE_OPENAI_API_VERSION") = none →
        (loadConfig env).apiVersion = str "2024-02-15-preview")
    ∧ (env (str "AZURE_OPENAI_CHAT_DEPLOYMENT") = none →
        (loadConfig env).chatDeployment = [])
    ∧ (env (str "AZURE_OPENAI_VISION_DEPLOYMENT") = none →
        (loadConfig env).visionDeployment = []) := by
  refine ⟨?_, ?_, ?_, ?_, ?_⟩ <;>
    intro h <;>
    simp [loadConfig, getenvOrEmpty, getenvDefault, h]

/-- Witness for C9's amended statement at the empty environment. -/
theorem C9_amended_loadConfig_witness :
    (loadConfig (fun _ => none)).endpoint = []
    ∧ (loadConfig (fun _ => none)).apiKey = []
    ∧ (loadConfig (fun _ => none)).apiVersion = str "2024-02-15-preview"
    ∧ (loadConfig (fun _ => none)).chatDeployment = []
    ∧ (loadConfig (fun _ => none)).visionDeployment = [] := by
  have h := C9_amended_loadConfig (fun _ => none)
  exact ⟨h.1 rfl, h.2.1 rfl, h.2.2.1 rfl, h.2.2.2.1 rfl, h.2.2.2.2 rfl⟩

end EduVision
